import Mathlib

/-
Verification of the isophote sampling engine (kungpao/isophote/ellipse/sample.py).

Embedding conventions:
* Machine floats are modelled as exact rationals.  A possibly non-finite
  float (NaN or plus/minus Inf) is `Option ℚ`: `some q` is a finite value,
  `Option.none` is a non-finite one.  This matches every use the claims
  exercise: `np.isfinite` rejects exactly `Option.none`, arithmetic on a
  non-finite operand is non-finite, comparisons against a non-finite value
  are false, and a NaN float is truthy in Python while `None` and `0.0`
  are falsy.
* Division by zero produces a non-finite float in numpy, hence
  `Option.none` here.
* The exact numeric square root of a rational is irrational in general, so
  the float square-root routine is abstracted as a parameter
  `sqrtQ : ℚ → ℚ`; `np.sqrt` of a negative argument is NaN, hence the
  guard in `nsqrt`.  No verified property depends on the value of `sqrtQ`
  except through explicit hypotheses such as `sqrtQ 0 = 0`.
* The collaborators Geometry (geometry.py), the Integrator family
  (integrator.py) and the module constant.py are outside the provided
  sources; they are modelled from the spec as parameter structures, see
  their doc comments.
* The three parallel series (angles, radii, intensities) that sample.py
  keeps in three lists and always filters with one common mask are
  represented as a single list of triples; the separate series are its
  projections.
-/

namespace KungPao

/-- A float value: `some q` is finite, `Option.none` is NaN or an infinity. -/
abbrev NReal := Option ℚ

/-- Float addition: non-finite if either operand is. -/
def nadd : NReal → NReal → NReal
  | some a, some b => some (a + b)
  | _, _ => Option.none

/-- Float subtraction: non-finite if either operand is. -/
def nsub : NReal → NReal → NReal
  | some a, some b => some (a - b)
  | _, _ => Option.none

/-- Float multiplication: non-finite if either operand is. -/
def nmul : NReal → NReal → NReal
  | some a, some b => some (a * b)
  | _, _ => Option.none

/-- Float division: non-finite if either operand is, or if the divisor is
zero (numpy yields Inf or NaN there, never an exception). -/
def ndiv : NReal → NReal → NReal
  | some a, some b => if b = 0 then Option.none else some (a / b)
  | _, _ => Option.none

/-- Float absolute value (`np.abs`); NaN maps to NaN. -/
def nabs : NReal → NReal
  | some a => some |a|
  | _ => Option.none

/-- Float square root; negative arguments and NaN give NaN, like `np.sqrt`. -/
def nsqrt (sqrtQ : ℚ → ℚ) : NReal → NReal
  | some a => if a < 0 then Option.none else some (sqrtQ a)
  | _ => Option.none

/-- Float `>=` comparison: any comparison involving a non-finite value is
false, as for NaN in Python/numpy. -/
def nge : NReal → NReal → Bool
  | some a, some b => decide (b ≤ a)
  | _, _ => false

/-- Float `<=` comparison: any comparison involving a non-finite value is
false, as for NaN in Python/numpy. -/
def nle : NReal → NReal → Bool
  | some a, some b => decide (a ≤ b)
  | _, _ => false

/-- A Python attribute holding either `None` (outer `Option.none`) or a
float (`some`), itself possibly NaN (`some Option.none`). -/
abbrev PyVal := Option NReal

/-- Python truthiness of such an attribute: `None` and `0.0` are falsy;
NaN and every non-zero float are truthy. -/
def pyTruthy : PyVal → Bool
  | Option.none => false
  | some Option.none => true
  | some (some q) => decide (q ≠ 0)

/-- Python falsiness of an optional float coordinate argument: `None` and
`0.0` are falsy, everything else truthy (`if not _x0 or not _y0`). -/
def isFalsyCoord : Option ℚ → Bool
  | Option.none => true
  | some q => decide (q = 0)

/-- Sum of a list of floats; non-finite as soon as one term is. -/
def nsum : List NReal → NReal
  | [] => some 0
  | a :: t => nadd a (nsum t)

/-- The `np.mean` of a list of floats: NaN on the empty list, NaN as soon
as one entry is non-finite, otherwise the arithmetic mean. -/
def npMean (l : List NReal) : NReal :=
  if l.length = 0 then Option.none else ndiv (nsum l) (some (l.length : ℚ))

/-- The finite entries of a list of floats. -/
def finiteVals (l : List NReal) : List ℚ := l.filterMap id

/-- The `np.nanmean` of a list of floats: the mean of the finite entries,
NaN when there is none. -/
def nanmean (l : List NReal) : NReal :=
  let f := finiteVals l
  if f.length = 0 then Option.none else some (f.sum / (f.length : ℚ))

/-- The `np.nanstd` of a list of floats (population std over the finite
entries), with the square root abstracted as `sqrtQ`. -/
def nanstd (sqrtQ : ℚ → ℚ) (l : List NReal) : NReal :=
  let f := finiteVals l
  if f.length = 0 then Option.none
  else
    some (sqrtQ (((f.map fun x => (x - f.sum / (f.length : ℚ)) ^ 2).sum) / (f.length : ℚ)))

/-- The plain `np.std` of a list of floats: NaN on an empty list or when
any entry is non-finite (because the mean already is), otherwise the
population standard deviation with the square root abstracted as `sqrtQ`. -/
def npStd (sqrtQ : ℚ → ℚ) (l : List NReal) : NReal :=
  match npMean l with
  | Option.none => Option.none
  | some m => some (sqrtQ (((finiteVals l).map fun x => (x - m) ^ 2).sum / (l.length : ℚ)))

/-- One sampled point: the (angle, radius, intensity) triple appended by
one integrator call. -/
structure SamplePt where
  angle : ℚ
  radius : ℚ
  intensity : NReal
deriving DecidableEq

/-- The three parallel series angles/radii/intensities of sample.py,
represented as one list of triples. -/
abbrev Series := List SamplePt

/-- The image as seen by sample.py itself: only its shape is read there
(for the default center); the pixel data is consumed exclusively by the
out-of-scope integrators, which are modelled as abstract functions. -/
structure Image where
  shape0 : ℕ
  shape1 : ℕ
deriving DecidableEq

/-- The scalar fields of the Geometry value object, as listed by the
spec's external-interface contract. -/
structure Geometry where
  x0 : ℚ
  y0 : ℚ
  sma : ℚ
  eps : ℚ
  pa : ℚ
  astep : ℚ
  linear_growth : Bool
deriving DecidableEq

/-- Modelled from the spec: geometry.py is not under src/.  The spec says
Geometry "derives initial polar radius/angle and a radius(angle) mapping";
those three derived operations are abstracted here as functions of the
geometry's scalar fields. -/
structure GeometryOps where
  initial_polar_radius : Geometry → ℚ
  initial_polar_angle : Geometry → ℚ
  radius : Geometry → ℚ → ℚ

/-- Modelled from the spec: integrator.py is not under src/.  Per the
spec's strategy contract, `integrate(radius, angle)` appends one
(angle, radius, intensity) triple, and the integrator reports a sector
area, a suggested next angular step, and whether it is area-sensitive.
The appended intensity and the two reports are abstracted as functions of
(image, geometry, radius, angle). -/
structure IntegratorOps where
  intensity : Image → Geometry → ℚ → ℚ → NReal
  sector_area : Image → Geometry → ℚ → ℚ → ℚ
  polar_angle_step : Image → Geometry → ℚ → ℚ → ℚ
  is_area : Bool

/-- The closed set of integration modes defined in integrator.py. -/
inductive IntegrMode where
  | bi_linear
  | nearest_neighbor
  | mean
  | median
deriving DecidableEq

/-- The `integrators` dispatch table of integrator.py, abstracted. -/
abbrev IntegratorFamily := IntegrMode → IntegratorOps

/-- The exact rational value of the float64 constant `np.pi`. -/
def NP_PI : ℚ := 884279719003555 / 281474976710656

/-- Modelled from the spec: constant.py is not under src/.  PHI_MIN is the
"small positive epsilon" added to the 2·pi walk bound; no verified
property depends on its exact value. -/
def PHI_MIN : ℚ := 1 / 20

/-- Default `astep`, documented in the sample.py docstring. -/
def DEFAULT_STEP : ℚ := 1 / 10

/-- Default ellipticity, documented in the sample.py docstring. -/
def DEFAULT_EPS : ℚ := 1 / 5

/-- Default sigma-clip threshold, documented in the sample.py docstring. -/
def DEFAULT_SCLIP : ℚ := 3

/-- The elliptical walk of `Sample._extract` (the `while` loop): while
`phi <= 2*np.pi + PHI_MIN`, integrate at (radius, phi) — appending one
triple and one sector area — then advance `phi` by
`min(integrator step, 0.5)` and recompute the radius.  The source loop
has no built-in bound; `fuel` bounds the recursion, and every verified
property either holds for all `fuel` or assumes only `0 < fuel`. -/
def walkLoop (ops : GeometryOps) (ig : IntegratorOps) (img : Image) (g : Geometry) :
    ℕ → ℚ → ℚ → Series × List ℚ
  | 0, _, _ => ([], [])
  | Nat.succ fuel, radius, phi =>
    if phi ≤ 2 * NP_PI + PHI_MIN then
      let pt : SamplePt := ⟨phi, radius, ig.intensity img g radius phi⟩
      let area := ig.sector_area img g radius phi
      let phi2 := phi + min (ig.polar_angle_step img g radius phi) (1 / 2)
      let rest := walkLoop ops ig img g fuel (ops.radius g phi2) phi2
      (pt :: rest.1, area :: rest.2)
    else ([], [])

/-- Whether a sampled point's intensity is finite (`np.isfinite`). -/
def isFinitePt (p : SamplePt) : Bool := p.intensity.isSome

/-- `Sample._nan_masking`: drop every triple whose intensity is not
finite. -/
def nanMasking (s : Series) : Series := s.filter isFinitePt

/-- `Sample._iter_sigma_clip`: one sigma-clip pass.  Keeps the triples
whose intensity lies in `[nanmean - sclip*nanstd, nanmean + sclip*nanstd]`
of the current intensities, removing the others from all three parallel
series at once. -/
def iterSigmaClip (sqrtQ : ℚ → ℚ) (sclip : ℚ) (s : Series) : Series :=
  let m := nanmean (s.map SamplePt.intensity)
  let sig := nanstd sqrtQ (s.map SamplePt.intensity)
  let lower := nsub m (nmul (some sclip) sig)
  let upper := nadd m (nmul (some sclip) sig)
  s.filter fun p => nge p.intensity lower && nle p.intensity upper

/-- `Sample._sigma_clip`: if `nclip > 0`, run `nclip` clipping
iterations, else return the series unchanged. -/
def sigmaClip (sqrtQ : ℚ → ℚ) (sclip : ℚ) (nclip : ℕ) (s : Series) : Series :=
  if 0 < nclip then (iterSigmaClip sqrtQ sclip)^[nclip] s else s

/-- The masking-and-clipping pipeline applied by `Sample._extract` to the
raw walked series. -/
def maskAndClip (sqrtQ : ℚ → ℚ) (sclip : ℚ) (nclip : ℕ) (raw : Series) : Series :=
  sigmaClip sqrtQ sclip nclip (nanMasking raw)

/-- The probe step of `Sample._extract`: for an area-sensitive integrator
perform one probe integration at the initial position, discard its
outputs, and use the bi-linear integrator for the real walk when the
reported sector area is below 1 pixel²; otherwise keep the caller's
selection.  Returns the number of integrator invocations spent on the
probe together with the integrator selected for the walk. -/
def chooseIntegrator (fam : IntegratorFamily) (img : Image) (mode : IntegrMode)
    (g : Geometry) (radius phi : ℚ) : ℕ × IntegratorOps :=
  let ig0 := fam mode
  if ig0.is_area then
    if ig0.sector_area img g radius phi < 1 then (1, fam IntegrMode.bi_linear)
    else (1, fam mode)
  else (0, ig0)

/-- The outputs of `Sample._extract`.  `raw` (the attempted triples, of
which `total_points` is the length) and `integ_calls` (the number of
`integrate` invocations, probe included) are instrumentation fields
corresponding to locals and call counts of the source. -/
structure ExtractOut where
  raw : Series
  series : Series
  sector_area : NReal
  total_points : ℕ
  actual_points : ℕ
  integ_calls : ℕ
deriving DecidableEq

/-- `Sample._extract`: probe-and-select the integrator, walk the ellipse,
average the recorded sector areas (`np.mean` of the possibly empty list),
then apply NaN masking and sigma clipping; `actual_points` is the length
of the surviving series and `total_points` the number of attempted
positions. -/
def extractCore (ops : GeometryOps) (fam : IntegratorFamily) (sqrtQ : ℚ → ℚ)
    (fuel : ℕ) (img : Image) (mode : IntegrMode) (sclip : ℚ) (nclip : ℕ)
    (g : Geometry) : ExtractOut :=
  let radius := ops.initial_polar_radius g
  let phi := ops.initial_polar_angle g
  let probe := chooseIntegrator fam img mode g radius phi
  let w := walkLoop ops probe.2 img g fuel radius phi
  let clipped := maskAndClip sqrtQ sclip nclip w.1
  { raw := w.1
    series := clipped
    sector_area :=
      if w.2.length = 0 then Option.none else some (w.2.sum / (w.2.length : ℚ))
    total_points := w.1.length
    actual_points := clipped.length
    integ_calls := probe.1 + w.1.length }

/-- The mutable state of one Sample instance: its construction parameters
and the derived/cached attributes, all initially `None`/0.  `integ_calls`
is instrumentation counting integrator invocations performed on behalf of
this instance. -/
structure SampleState where
  img : Image
  geometry : Geometry
  integrmode : IntegrMode
  sclip : ℚ
  nclip : ℕ
  values : Option Series
  mean : PyVal
  gradient : PyVal
  gradient_error : PyVal
  gradient_relative_error : PyVal
  sector_area : PyVal
  total_points : ℕ
  actual_points : ℕ
  integ_calls : ℕ
deriving DecidableEq

/-- `Sample.__init__`: when a Geometry is supplied it is deep-copied with
its `sma` overridden; otherwise, if either supplied center coordinate is
falsy (`None` or zero), both coordinates default to the image center
`(shape[0]/2, shape[1]/2)`, and a Geometry is built from the scalars.
All cached attributes start as `None` and the counters at zero. -/
def mkSample (img : Image) (sma : ℚ) (x0 y0 : Option ℚ) (astep eps pa sclip : ℚ)
    (nclip : ℕ) (linear_growth : Bool) (mode : IntegrMode)
    (geometry : Option Geometry) : SampleState :=
  let geo : Geometry :=
    match geometry with
    | some g => { g with sma := sma }
    | Option.none =>
      if isFalsyCoord x0 || isFalsyCoord y0 then
        ⟨(img.shape0 : ℚ) / 2, (img.shape1 : ℚ) / 2, sma, eps, pa, astep, linear_growth⟩
      else
        ⟨x0.getD 0, y0.getD 0, sma, eps, pa, astep, linear_growth⟩
  { img := img
    geometry := geo
    integrmode := mode
    sclip := sclip
    nclip := nclip
    values := Option.none
    mean := Option.none
    gradient := Option.none
    gradient_error := Option.none
    gradient_relative_error := Option.none
    sector_area := Option.none
    total_points := 0
    actual_points := 0
    integ_calls := 0 }

/-- `Sample.extract`: return the cached series if present, otherwise run
`_extract` once and cache its outputs on the instance. -/
def extract (ops : GeometryOps) (fam : IntegratorFamily) (sqrtQ : ℚ → ℚ)
    (fuel : ℕ) (s : SampleState) : Series × SampleState :=
  match s.values with
  | some v => (v, s)
  | Option.none =>
    let r := extractCore ops fam sqrtQ fuel s.img s.integrmode s.sclip s.nclip s.geometry
    (r.series,
      { s with
        values := some r.series
        sector_area := some r.sector_area
        total_points := r.total_points
        actual_points := r.actual_points
        integ_calls := s.integ_calls + r.integ_calls })

/-- The sibling Sample built by `Sample._get_gradient` at
`sma' = (1+step)*sma`, duplicating center, ellipticity, position angle,
axis step, growth mode, sigma-clip settings and integration mode, with
its Geometry derived fresh from these scalars. -/
def gradientSample (s : SampleState) (step : ℚ) : SampleState :=
  mkSample s.img ((1 + step) * s.geometry.sma) (some s.geometry.x0)
    (some s.geometry.y0) s.geometry.astep s.geometry.eps s.geometry.pa
    s.sclip s.nclip s.geometry.linear_growth s.integrmode Option.none

/-- `Sample._get_gradient`: build the sibling Sample at `(1+step)*sma`,
extract it, and return the finite-difference gradient together with its
error estimate.  `self.mean` has been set by `update` before this is
called; a `None` mean would already be a type error in the source, so it
is read here as NaN. -/
def get_gradient (ops : GeometryOps) (fam : IntegratorFamily) (sqrtQ : ℚ → ℚ)
    (fuel : ℕ) (s : SampleState) (step : ℚ) : NReal × NReal :=
  let g := s.geometry
  let sg := (extract ops fam sqrtQ fuel (gradientSample s step)).1
  let mean_g := npMean (sg.map SamplePt.intensity)
  let gradient := ndiv (ndiv (nsub mean_g (s.mean.getD Option.none)) (some g.sma)) (some step)
  let sv := (extract ops fam sqrtQ fuel s).1
  let sigma := npStd sqrtQ (sv.map SamplePt.intensity)
  let sigma_g := npStd sqrtQ (sg.map SamplePt.intensity)
  let ge := ndiv (ndiv (nsqrt sqrtQ (nadd (ndiv (nmul sigma sigma) (some (sv.length : ℚ)))
    (ndiv (nmul sigma_g sigma_g) (some (sg.length : ℚ))))) (some g.sma)) (some step)
  (gradient, ge)

/-- The `previous_gradient` guess of `Sample.update`: the prior gradient
attribute when it is truthy, else the representative value -0.05. -/
def previousGradient (g : PyVal) : NReal :=
  if pyTruthy g then g.getD Option.none else some (-(1 / 20))

/-- The meaningfulness chain of `Sample.update`: if the first candidate
gradient is not more negative than `previous/3`, take the retried
candidate; if that is still not more negative than `previous/3`, fall
back to `previous * 0.8` with a `None` error. -/
def gradientChain (prev : NReal) (gr1 gr2 : NReal × NReal) : NReal × PyVal :=
  let g1 := if nge gr1.1 (ndiv prev (some 3)) then gr2 else gr1
  if nge g1.1 (ndiv prev (some 3)) then (nmul prev (some (4 / 5)), Option.none)
  else (g1.1, some g1.2)

/-- The tail of `Sample.update`: `gradient_error / np.abs(gradient)` when
`gradient_error` is truthy, else `None`. -/
def relativeError (gradient : NReal) (gerr : PyVal) : PyVal :=
  if pyTruthy gerr then some (ndiv (gerr.getD Option.none) (nabs gradient))
  else Option.none

/-- The first half of `Sample.update`: extract (cached) and set `mean`
to the `np.mean` of the extracted intensities. -/
def updateMeanState (ops : GeometryOps) (fam : IntegratorFamily) (sqrtQ : ℚ → ℚ)
    (fuel : ℕ) (s0 : SampleState) : SampleState :=
  { (extract ops fam sqrtQ fuel s0).2 with
    mean := some (npMean ((extract ops fam sqrtQ fuel s0).1.map SamplePt.intensity)) }

/-- The gradient-selection half of `Sample.update`: run the
meaningfulness chain on the candidate gradients obtained at relative
steps `astep` and `2*astep`.  The source computes the retry candidate
lazily; computing both and selecting is value-equal because
`_get_gradient` has no effect on the parent state. -/
def updateChain (ops : GeometryOps) (fam : IntegratorFamily) (sqrtQ : ℚ → ℚ)
    (fuel : ℕ) (s0 : SampleState) : NReal × PyVal :=
  gradientChain (previousGradient (updateMeanState ops fam sqrtQ fuel s0).gradient)
    (get_gradient ops fam sqrtQ fuel (updateMeanState ops fam sqrtQ fuel s0)
      s0.geometry.astep)
    (get_gradient ops fam sqrtQ fuel (updateMeanState ops fam sqrtQ fuel s0)
      (2 * s0.geometry.astep))

/-- `Sample.update`: extract (cached), set the mean, compute a candidate
gradient at relative step `astep`, retry at `2*astep` when not
meaningful, fall back to `previous * 0.8` with undefined error when
still not meaningful, then set the relative error. -/
def update (ops : GeometryOps) (fam : IntegratorFamily) (sqrtQ : ℚ → ℚ)
    (fuel : ℕ) (s0 : SampleState) : SampleState :=
  { updateMeanState ops fam sqrtQ fuel s0 with
    gradient := some (updateChain ops fam sqrtQ fuel s0).1
    gradient_error := (updateChain ops fam sqrtQ fuel s0).2
    gradient_relative_error := relativeError (updateChain ops fam sqrtQ fuel s0).1
      (updateChain ops fam sqrtQ fuel s0).2 }

/-- `Sample.coordinates` over the reals: map each cached (angle, radius)
pair to `(radius*cos(angle+pa) + x0, radius*sin(angle+pa) + y0)`. -/
noncomputable def coordinatesR (pa x0 y0 : ℝ) (pts : List (ℝ × ℝ)) : List (ℝ × ℝ) :=
  pts.map fun p => (p.2 * Real.cos (p.1 + pa) + x0, p.2 * Real.sin (p.1 + pa) + y0)

/-- The exceptions `Sample.coordinates` can surface.  The code itself can
only raise `TypeError` (subscripting the `None` cache); the
`preconditionError` variant exists to state the spec's claimed error
class for comparison — modelled from the spec's error taxonomy. -/
inductive PyExc where
  | typeError (msg : String)
  | preconditionError (msg : String)
deriving DecidableEq

/-- `Sample.coordinates` as run on an instance state: reading
`self.values[0]` with an unpopulated cache raises a `TypeError` in
Python; with a populated cache it returns the mapped coordinates.  The
trigonometric functions are abstracted as `cosF`/`sinF` to keep this
executable; the exact mapping formula is verified on `coordinatesR`. -/
def coordinatesExc (cosF sinF : ℚ → ℚ) (s : SampleState) :
    Except PyExc (List (ℚ × ℚ)) :=
  match s.values with
  | Option.none => Except.error (PyExc.typeError "NoneType object is not subscriptable")
  | some v =>
    Except.ok (v.map fun p =>
      (p.radius * cosF (p.angle + s.geometry.pa) + s.geometry.x0,
       p.radius * sinF (p.angle + s.geometry.pa) + s.geometry.y0))

/-- Whether a `coordinates` outcome is the spec's `PreconditionError`. -/
def isPreconditionError : Except PyExc (List (ℚ × ℚ)) → Bool
  | Except.error (PyExc.preconditionError _) => true
  | _ => false

/-- Whether a `coordinates` outcome is a Python `TypeError`. -/
def isTypeError : Except PyExc (List (ℚ × ℚ)) → Bool
  | Except.error (PyExc.typeError _) => true
  | _ => false

/-- Concrete geometry operations used in the verification examples: a
circle of radius `sma` whose walk starts at polar angle 6 (one step
before wraparound). -/
def opsCircle : GeometryOps where
  initial_polar_radius := fun g => g.sma
  initial_polar_angle := fun _ => 6
  radius := fun g _ => g.sma

/-- Concrete integrator family used in the verification examples:
constant intensity `c`, sector area 2, suggested step 1, not
area-sensitive. -/
def famConst (c : NReal) : IntegratorFamily := fun _ =>
  { intensity := fun _ _ _ _ => c
    sector_area := fun _ _ _ _ => 2
    polar_angle_step := fun _ _ _ _ => 1
    is_area := false }

/-- Concrete area-sensitive integrator family whose reported sector area
is 0, used to exercise the sub-pixel-area fallback. -/
def famSmallArea : IntegratorFamily := fun _ =>
  { intensity := fun _ _ _ _ => some 7
    sector_area := fun _ _ _ _ => 0
    polar_angle_step := fun _ _ _ _ => 1
    is_area := true }

/-- Concrete integrator family whose intensity is a step function of the
geometry's semi-major axis: 10 inside `sma ≤ 10`, 0 outside.  Both the
main sample and the gradient sibling then see constant series, so the
gradient is sharply negative while its error estimate is exactly 0. -/
def famSmaStep : IntegratorFamily := fun _ =>
  { intensity := fun _ g _ _ => some (if g.sma ≤ 10 then 10 else 0)
    sector_area := fun _ _ _ _ => 2
    polar_angle_step := fun _ _ _ _ => 1
    is_area := false }

/-- Concrete 8×6 image used in the verification examples. -/
def imgDemo : Image := ⟨8, 6⟩

/-- Concrete square-root stub for the verification examples; they only
ever apply it at argument 0, where `np.sqrt` is also 0. -/
def sqrtZero : ℚ → ℚ := fun _ => 0

/-- Concrete Sample used in the verification examples: `sma = 10`,
center (1, 1), `astep = 0.1`, circle, `sclip = 3`, `nclip = 0`. -/
def sampleDemo : SampleState :=
  mkSample imgDemo 10 (some 1) (some 1) (1 / 10) 0 0 3 0 false
    IntegrMode.bi_linear Option.none

section Lemmas

/-- Subtracting a non-finite float yields a non-finite float. -/
theorem nsub_none_right (x : NReal) : nsub x Option.none = Option.none := by
  cases x <;> rfl

/-- Dividing a non-finite float yields a non-finite float. -/
theorem ndiv_none_left (y : NReal) : ndiv Option.none y = Option.none := by
  cases y <;> rfl

/-- Adding to a non-finite float yields a non-finite float. -/
theorem nadd_none_left (y : NReal) : nadd Option.none y = Option.none := by
  cases y <;> rfl

/-- Multiplying a non-finite float yields a non-finite float. -/
theorem nmul_none_left (y : NReal) : nmul Option.none y = Option.none := by
  cases y <;> rfl

/-- Comparison against a non-finite float is false. -/
theorem nge_none_left (y : NReal) : nge Option.none y = false := by
  cases y <;> rfl

/-- `_sigma_clip` is `nclip` iterations of `_iter_sigma_clip` for every
`nclip`, the `nclip = 0` guard included. -/
theorem sigmaClip_eq_iterate (sqrtQ : ℚ → ℚ) (sclip : ℚ) (nclip : ℕ) (s : Series) :
    sigmaClip sqrtQ sclip nclip s = (iterSigmaClip sqrtQ sclip)^[nclip] s := by
  cases nclip with
  | zero => simp [sigmaClip]
  | succ n => simp [sigmaClip]

/-- One sigma-clip pass never grows the series. -/
theorem iterSigmaClip_length_le (sqrtQ : ℚ → ℚ) (sclip : ℚ) (s : Series) :
    (iterSigmaClip sqrtQ sclip s).length ≤ s.length :=
  List.length_filter_le _ _

end Lemmas

/-- C1: for a Sample constructed with `nclip = 0`, after extraction the
`actual_points` counter equals the number of attempted walk positions
whose integrated intensity is finite, `actual_points` never exceeds
`total_points`, and the three series of the cached tensor (angles, radii,
intensities) all have length `actual_points`. -/
theorem c1_nclip_zero_points (ops : GeometryOps) (fam : IntegratorFamily)
    (sqrtQ : ℚ → ℚ) (fuel : ℕ) (img : Image) (mode : IntegrMode) (sclip : ℚ)
    (g : Geometry) :
    (extractCore ops fam sqrtQ fuel img mode sclip 0 g).actual_points =
      (extractCore ops fam sqrtQ fuel img mode sclip 0 g).raw.countP isFinitePt ∧
    (extractCore ops fam sqrtQ fuel img mode sclip 0 g).actual_points ≤
      (extractCore ops fam sqrtQ fuel img mode sclip 0 g).total_points ∧
    ((extractCore ops fam sqrtQ fuel img mode sclip 0 g).series.map SamplePt.angle).length =
      (extractCore ops fam sqrtQ fuel img mode sclip 0 g).actual_points ∧
    ((extractCore ops fam sqrtQ fuel img mode sclip 0 g).series.map SamplePt.radius).length =
      (extractCore ops fam sqrtQ fuel img mode sclip 0 g).actual_points ∧
    ((extractCore ops fam sqrtQ fuel img mode sclip 0 g).series.map SamplePt.intensity).length =
      (extractCore ops fam sqrtQ fuel img mode sclip 0 g).actual_points := by
  refine ⟨?_, ?_, ?_, ?_, ?_⟩ <;>
    simp [extractCore, maskAndClip, sigmaClip, nanMasking,
      List.countP_eq_length_filter, List.length_filter_le]

/-- C4: for a fixed `sclip`, running one more sigma-clip iteration on the
same raw series never yields more surviving points: `actual_points` is
monotonically non-increasing in `nclip`. -/
theorem c4_nclip_monotone (sqrtQ : ℚ → ℚ) (sclip : ℚ) (raw : Series) (n : ℕ) :
    (maskAndClip sqrtQ sclip (n + 1) raw).length ≤
      (maskAndClip sqrtQ sclip n raw).length := by
  rw [maskAndClip, maskAndClip, sigmaClip_eq_iterate, sigmaClip_eq_iterate,
    Function.iterate_succ_apply']
  exact iterSigmaClip_length_le _ _ _

/-- C7: calling `extract` a second time without clearing the cache
returns the identical tensor and leaves the state unchanged — in
particular the integrator-invocation counter does not move, so the walk
runs at most once per instance. -/
theorem c7_extract_cached (ops : GeometryOps) (fam : IntegratorFamily)
    (sqrtQ : ℚ → ℚ) (fuel : ℕ) (s0 : SampleState) :
    extract ops fam sqrtQ fuel (extract ops fam sqrtQ fuel s0).2 =
      ((extract ops fam sqrtQ fuel s0).1, (extract ops fam sqrtQ fuel s0).2) := by
  cases h : s0.values <;> simp [extract, h]

/-- C10: constructing a Sample without a Geometry replaces both center
coordinates by the image-center defaults `(shape[0]/2, shape[1]/2)`
whenever either supplied coordinate is omitted or zero — discarding a
non-zero coordinate supplied for the other axis — and honors the
supplied pair only when both are non-zero. -/
theorem c10_center_default (img : Image) (sma : ℚ) (x0 y0 : Option ℚ)
    (astep eps pa sclip : ℚ) (nclip : ℕ) (lg : Bool) (mode : IntegrMode) :
    ((isFalsyCoord x0 = true ∨ isFalsyCoord y0 = true) →
      (mkSample img sma x0 y0 astep eps pa sclip nclip lg mode Option.none).geometry.x0 =
        (img.shape0 : ℚ) / 2 ∧
      (mkSample img sma x0 y0 astep eps pa sclip nclip lg mode Option.none).geometry.y0 =
        (img.shape1 : ℚ) / 2) ∧
    (∀ a b : ℚ, x0 = some a → a ≠ 0 → y0 = some b → b ≠ 0 →
      (mkSample img sma x0 y0 astep eps pa sclip nclip lg mode Option.none).geometry.x0 = a ∧
      (mkSample img sma x0 y0 astep eps pa sclip nclip lg mode Option.none).geometry.y0 = b) := by
  constructor
  · intro h
    have hb : (isFalsyCoord x0 || isFalsyCoord y0) = true := by
      rcases h with h | h <;> simp [h]
    simp [mkSample, hb]
  · intro a b hxa ha hyb hb
    simp [mkSample, hxa, hyb, isFalsyCoord, ha, hb]

/-- Witness for C10: with an 8×6 image, a supplied non-zero `x0 = 3` is
discarded because `y0 = 0` is falsy, and both coordinates become the
image-center defaults 4 and 3. -/
theorem c10_center_default_witness :
    (mkSample imgDemo 10 (some 3) (some 0) (1 / 10) 0 0 3 0 false
      IntegrMode.bi_linear Option.none).geometry.x0 = 4 ∧
    (mkSample imgDemo 10 (some 3) (some 0) (1 / 10) 0 0 3 0 false
      IntegrMode.bi_linear Option.none).geometry.y0 = 3 := by
  have h := (c10_center_default imgDemo 10 (some 3) (some 0) (1 / 10) 0 0 3 0 false
    IntegrMode.bi_linear).1 (Or.inr (by decide))
  refine ⟨?_, ?_⟩
  · rw [h.1]; norm_num [imgDemo]
  · rw [h.2]; norm_num [imgDemo]

/-- C8 counterexample: on a freshly constructed Sample whose cache was
never populated, `coordinates()` fails with a Python `TypeError` (from
subscripting the `None` cache), not with the descriptive
`PreconditionError` the claim names. -/
theorem c8_counterexample_typeerror :
    isTypeError (coordinatesExc (fun q => q) (fun q => q) sampleDemo) = true ∧
    isPreconditionError (coordinatesExc (fun q => q) (fun q => q) sampleDemo) = false := by
  decide

/-- C8 amended: calling `coordinates()` before `extract` has populated
the cache fails with an exception — a `TypeError` from subscripting the
unpopulated cache — rather than silently returning garbage coordinates. -/
theorem c8_coordinates_requires_cache (cosF sinF : ℚ → ℚ) (s : SampleState)
    (h : s.values = Option.none) :
    coordinatesExc cosF sinF s =
      Except.error (PyExc.typeError "NoneType object is not subscriptable") := by
  simp [coordinatesExc, h]

/-- Witness for the amended C8 on the concrete fresh Sample. -/
theorem c8_coordinates_requires_cache_witness :
    coordinatesExc (fun q => q) (fun q => q) sampleDemo =
      Except.error (PyExc.typeError "NoneType object is not subscriptable") :=
  c8_coordinates_requires_cache (fun q => q) (fun q => q) sampleDemo rfl

/-- The probe-and-select step always picks the bi-linear integrator when
the caller selected bi-linear mode, whether or not that integrator flags
itself as area-sensitive. -/
theorem chooseIntegrator_bi_linear (fam : IntegratorFamily) (img : Image)
    (g : Geometry) (radius phi : ℚ) :
    (chooseIntegrator fam img IntegrMode.bi_linear g radius phi).2 =
      fam IntegrMode.bi_linear := by
  simp only [chooseIntegrator]
  split
  · split <;> rfl
  · rfl

/-- C2: when the configured mean-mode integrator is area-sensitive (as
the spec's integrator contract states) and its probe integration at the
initial position reports a sector area below 1 pixel², `extract` walks
with the bi-linear integrator instead, so the resulting tensor equals the
one produced by an explicit bi-linear-mode Sample on the same image and
geometry. -/
theorem c2_small_area_forces_bilinear (ops : GeometryOps) (fam : IntegratorFamily)
    (sqrtQ : ℚ → ℚ) (fuel : ℕ) (img : Image) (sclip : ℚ) (nclip : ℕ) (g : Geometry)
    (hmean : (fam IntegrMode.mean).is_area = true)
    (harea : (fam IntegrMode.mean).sector_area img g (ops.initial_polar_radius g)
      (ops.initial_polar_angle g) < 1) :
    (extractCore ops fam sqrtQ fuel img IntegrMode.mean sclip nclip g).series =
      (extractCore ops fam sqrtQ fuel img IntegrMode.bi_linear sclip nclip g).series := by
  have h1 : (chooseIntegrator fam img IntegrMode.mean g (ops.initial_polar_radius g)
      (ops.initial_polar_angle g)).2 = fam IntegrMode.bi_linear := by
    simp [chooseIntegrator, hmean, harea]
  simp [extractCore, h1, chooseIntegrator_bi_linear]

/-- Witness for C2: a family whose area-sensitive mean integrator reports
sector area 0 produces, in mean mode, the tensor of the bi-linear mode. -/
theorem c2_small_area_forces_bilinear_witness :
    ((famSmallArea IntegrMode.mean).is_area = true ∧
      (famSmallArea IntegrMode.mean).sector_area imgDemo sampleDemo.geometry
        (opsCircle.initial_polar_radius sampleDemo.geometry)
        (opsCircle.initial_polar_angle sampleDemo.geometry) < 1) ∧
    (extractCore opsCircle famSmallArea sqrtZero 2 imgDemo IntegrMode.mean 3 0
        sampleDemo.geometry).series =
      (extractCore opsCircle famSmallArea sqrtZero 2 imgDemo IntegrMode.bi_linear 3 0
        sampleDemo.geometry).series :=
  ⟨⟨by decide, by decide⟩,
    c2_small_area_forces_bilinear opsCircle famSmallArea sqrtZero 2 imgDemo 3 0
      sampleDemo.geometry (by decide) (by decide)⟩

/-- The finite entries of a list whose entries all equal `some c`. -/
theorem finiteVals_all_eq (c : ℚ) (l : List NReal) (h : ∀ x ∈ l, x = some c) :
    finiteVals l = List.replicate l.length c := by
  induction l with
  | nil => rfl
  | cons a t ih =>
    have ha : a = some c := h a (List.mem_cons_self a t)
    have ht : ∀ x ∈ t, x = some c := fun x hx => h x (List.mem_cons_of_mem a hx)
    simp [finiteVals, ha, List.replicate_succ, ← ih ht, List.filterMap_cons]

/-- The float sum of a list whose entries all equal `some c`. -/
theorem nsum_all_eq (c : ℚ) (l : List NReal) (h : ∀ x ∈ l, x = some c) :
    nsum l = some (l.length * c) := by
  induction l with
  | nil => simp [nsum]
  | cons a t ih =>
    have ha : a = some c := h a (List.mem_cons_self a t)
    have ht : ∀ x ∈ t, x = some c := fun x hx => h x (List.mem_cons_of_mem a hx)
    rw [nsum, ha, ih ht, nadd]
    congr 1
    push_cast [List.length_cons]
    ring

/-- `np.mean` of a non-empty list whose entries all equal `some c`. -/
theorem npMean_all_eq (c : ℚ) (l : List NReal) (h : ∀ x ∈ l, x = some c)
    (hne : l ≠ []) : npMean l = some c := by
  have hlen : l.length ≠ 0 := fun h0 => hne (List.length_eq_zero.1 h0)
  have hlq : (l.length : ℚ) ≠ 0 := Nat.cast_ne_zero.2 hlen
  rw [npMean, if_neg hlen, nsum_all_eq c l h, ndiv, if_neg hlq]
  congr 1
  rw [mul_comm, mul_div_assoc, div_self hlq, mul_one]

/-- `np.nanmean` of a non-empty list whose entries all equal `some c`. -/
theorem nanmean_all_eq (c : ℚ) (l : List NReal) (h : ∀ x ∈ l, x = some c)
    (hne : l ≠ []) : nanmean l = some c := by
  have hlen : l.length ≠ 0 := fun h0 => hne (List.length_eq_zero.1 h0)
  have hlq : (l.length : ℚ) ≠ 0 := Nat.cast_ne_zero.2 hlen
  rw [nanmean, finiteVals_all_eq c l h]
  simp only [List.length_replicate, List.sum_replicate, nsmul_eq_mul, if_neg hlen]
  congr 1
  rw [mul_comm, mul_div_assoc, div_self hlq, mul_one]

/-- `np.nanstd` of a non-empty list whose entries all equal `some c`:
every deviation is 0, so the result is the square root of 0. -/
theorem nanstd_all_eq (sqrtQ : ℚ → ℚ) (c : ℚ) (l : List NReal)
    (h : ∀ x ∈ l, x = some c) (hne : l ≠ []) :
    nanstd sqrtQ l = some (sqrtQ 0) := by
  have hlen : l.length ≠ 0 := fun h0 => hne (List.length_eq_zero.1 h0)
  have hlq : (l.length : ℚ) ≠ 0 := Nat.cast_ne_zero.2 hlen
  rw [nanstd, finiteVals_all_eq c l h]
  simp only [List.length_replicate, List.sum_replicate, nsmul_eq_mul,
    List.map_replicate, if_neg hlen]
  have h1 : (l.length : ℚ) * c / (l.length : ℚ) = c := by
    rw [mul_comm, mul_div_assoc, div_self hlq, mul_one]
  rw [h1, sub_self]
  norm_num

/-- One sigma-clip pass keeps a series of constant finite intensity
intact, provided the float square root of 0 is 0 (true of `np.sqrt`):
the standard deviation is then exactly 0, so the clip window is the
degenerate interval `[mean, mean]` and every point survives. -/
theorem iterSigmaClip_const (sqrtQ : ℚ → ℚ) (sclip c : ℚ) (s : Series)
    (h : ∀ p ∈ s, p.intensity = some c) (hsq : sqrtQ 0 = 0) :
    iterSigmaClip sqrtQ sclip s = s := by
  cases s with
  | nil => rfl
  | cons a t =>
    have hne : (a :: t).map SamplePt.intensity ≠ [] := by simp
    have hall : ∀ x ∈ (a :: t).map SamplePt.intensity, x = some c := by
      intro x hx
      rcases List.mem_map.1 hx with ⟨p, hp, rfl⟩
      exact h p hp
    rw [iterSigmaClip]
    simp only [nanmean_all_eq c _ hall hne, nanstd_all_eq sqrtQ c _ hall hne, hsq]
    apply List.filter_eq_self.2
    intro p hp
    rw [h p hp]
    simp [nge, nle, nsub, nadd, nmul]

/-- NaN masking keeps a series of constant finite intensity intact. -/
theorem nanMasking_const (c : ℚ) (s : Series) (h : ∀ p ∈ s, p.intensity = some c) :
    nanMasking s = s := by
  apply List.filter_eq_self.2
  intro p hp
  rw [isFinitePt, h p hp]
  rfl

/-- Every point appended by the walk carries the integrator's intensity;
with an integrator returning the same value at every position of this
geometry, the whole raw series carries that value. -/
theorem walkLoop_const (ops : GeometryOps) (ig : IntegratorOps) (img : Image)
    (g : Geometry) (v : NReal) (hig : ∀ r phi, ig.intensity img g r phi = v) :
    ∀ (fuel : ℕ) (radius phi : ℚ),
      ∀ p ∈ (walkLoop ops ig img g fuel radius phi).1, p.intensity = v := by
  intro fuel
  induction fuel with
  | zero => intro radius phi p hp; simp [walkLoop] at hp
  | succ n ih =>
    intro radius phi p hp
    by_cases hb : phi ≤ 2 * NP_PI + PHI_MIN
    · rw [walkLoop, if_pos hb] at hp
      simp only [List.mem_cons] at hp
      rcases hp with h1 | h1
      · rw [h1]; exact hig radius phi
      · exact ih _ _ p h1
    · rw [walkLoop, if_neg hb] at hp
      simp at hp

/-- With fuel remaining and the angle still inside the walk bound, the
walk performs at least one integration. -/
theorem walkLoop_ne_nil (ops : GeometryOps) (ig : IntegratorOps) (img : Image)
    (g : Geometry) (fuel : ℕ) (radius phi : ℚ) (hf : 0 < fuel)
    (hphi : phi ≤ 2 * NP_PI + PHI_MIN) :
    (walkLoop ops ig img g fuel radius phi).1 ≠ [] := by
  cases fuel with
  | zero => exact absurd hf (lt_irrefl 0)
  | succ n =>
    rw [walkLoop, if_pos hphi]
    simp

/-- The integrator selected by the probe step is always a member of the
dispatch family. -/
theorem chooseIntegrator_mem (fam : IntegratorFamily) (img : Image)
    (mode : IntegrMode) (g : Geometry) (radius phi : ℚ) :
    ∃ m, (chooseIntegrator fam img mode g radius phi).2 = fam m := by
  simp only [chooseIntegrator]
  split
  · split
    · exact ⟨IntegrMode.bi_linear, rfl⟩
    · exact ⟨mode, rfl⟩
  · exact ⟨mode, rfl⟩

/-- On an image of constant finite intensity `c` (every integrator of the
family returns `some c` everywhere), `_extract` returns a series that is
all `some c`, and a non-empty one as soon as there is fuel and the
initial angle lies inside the walk bound. -/
theorem extractCore_const (ops : GeometryOps) (fam : IntegratorFamily)
    (sqrtQ : ℚ → ℚ) (fuel : ℕ) (img : Image) (mode : IntegrMode) (sclip : ℚ)
    (nclip : ℕ) (g : Geometry) (c : ℚ)
    (hfam : ∀ m r phi, (fam m).intensity img g r phi = some c)
    (hsq : sqrtQ 0 = 0) :
    (∀ p ∈ (extractCore ops fam sqrtQ fuel img mode sclip nclip g).series,
      p.intensity = some c) ∧
    (0 < fuel → ops.initial_polar_angle g ≤ 2 * NP_PI + PHI_MIN →
      (extractCore ops fam sqrtQ fuel img mode sclip nclip g).series ≠ []) := by
  obtain ⟨m, hm⟩ := chooseIntegrator_mem fam img mode g (ops.initial_polar_radius g)
    (ops.initial_polar_angle g)
  have hser : (extractCore ops fam sqrtQ fuel img mode sclip nclip g).series =
      maskAndClip sqrtQ sclip nclip
        (walkLoop ops
          (chooseIntegrator fam img mode g (ops.initial_polar_radius g)
            (ops.initial_polar_angle g)).2
          img g fuel (ops.initial_polar_radius g) (ops.initial_polar_angle g)).1 := rfl
  have hraw : ∀ p ∈ (walkLoop ops
      (chooseIntegrator fam img mode g (ops.initial_polar_radius g)
        (ops.initial_polar_angle g)).2
      img g fuel (ops.initial_polar_radius g) (ops.initial_polar_angle g)).1,
      p.intensity = some c := by
    rw [hm]
    exact walkLoop_const ops (fam m) img g (some c) (hfam m) fuel _ _
  have hclip : (extractCore ops fam sqrtQ fuel img mode sclip nclip g).series =
      (walkLoop ops
        (chooseIntegrator fam img mode g (ops.initial_polar_radius g)
          (ops.initial_polar_angle g)).2
        img g fuel (ops.initial_polar_radius g) (ops.initial_polar_angle g)).1 := by
    rw [hser, maskAndClip, nanMasking_const c _ hraw, sigmaClip_eq_iterate]
    exact Function.iterate_fixed (iterSigmaClip_const sqrtQ sclip c _ hraw hsq) nclip
  constructor
  · rw [hclip]; exact hraw
  · intro hf hphi
    rw [hclip]
    exact walkLoop_ne_nil ops _ img g fuel _ _ hf hphi

/-- `extract` never touches the `gradient` attribute. -/
theorem extract_snd_gradient (ops : GeometryOps) (fam : IntegratorFamily)
    (sqrtQ : ℚ → ℚ) (fuel : ℕ) (s : SampleState) :
    (extract ops fam sqrtQ fuel s).2.gradient = s.gradient := by
  cases h : s.values <;> simp [extract, h]

/-- `extract` never touches the image reference. -/
theorem extract_snd_img (ops : GeometryOps) (fam : IntegratorFamily)
    (sqrtQ : ℚ → ℚ) (fuel : ℕ) (s : SampleState) :
    (extract ops fam sqrtQ fuel s).2.img = s.img := by
  cases h : s.values <;> simp [extract, h]

/-- `extract` never touches the geometry. -/
theorem extract_snd_geometry (ops : GeometryOps) (fam : IntegratorFamily)
    (sqrtQ : ℚ → ℚ) (fuel : ℕ) (s : SampleState) :
    (extract ops fam sqrtQ fuel s).2.geometry = s.geometry := by
  cases h : s.values <;> simp [extract, h]

/-- After any `extract` call the cache holds exactly the returned series. -/
theorem extract_snd_values (ops : GeometryOps) (fam : IntegratorFamily)
    (sqrtQ : ℚ → ℚ) (fuel : ℕ) (s : SampleState) :
    (extract ops fam sqrtQ fuel s).2.values = some (extract ops fam sqrtQ fuel s).1 := by
  cases h : s.values <;> simp [extract, h]

/-- On an unpopulated cache, `extract` returns the `_extract` series. -/
theorem extract_fst_of_none (ops : GeometryOps) (fam : IntegratorFamily)
    (sqrtQ : ℚ → ℚ) (fuel : ℕ) (s : SampleState) (h : s.values = Option.none) :
    (extract ops fam sqrtQ fuel s).1 =
      (extractCore ops fam sqrtQ fuel s.img s.integrmode s.sclip s.nclip s.geometry).series := by
  simp [extract, h]

/-- On a Sample with an unpopulated cache over a constant-intensity
image, the extracted intensities average to that constant as soon as the
walk is non-trivial. -/
theorem extract_mean_const (ops : GeometryOps) (fam : IntegratorFamily)
    (sqrtQ : ℚ → ℚ) (fuel : ℕ) (s : SampleState) (c : ℚ)
    (hfam : ∀ m r phi, (fam m).intensity s.img s.geometry r phi = some c)
    (hsq : sqrtQ 0 = 0) (hval : s.values = Option.none)
    (hang : ops.initial_polar_angle s.geometry ≤ 2 * NP_PI + PHI_MIN)
    (hfuel : 0 < fuel) :
    npMean ((extract ops fam sqrtQ fuel s).1.map SamplePt.intensity) = some c := by
  have hfst := extract_fst_of_none ops fam sqrtQ fuel s hval
  have hc := extractCore_const ops fam sqrtQ fuel s.img s.integrmode s.sclip
    s.nclip s.geometry c hfam hsq
  rw [hfst]
  apply npMean_all_eq
  · intro x hx
    rcases List.mem_map.1 hx with ⟨p, hp, rfl⟩
    exact hc.1 p hp
  · simp only [ne_eq, List.map_eq_nil_iff]
    exact hc.2 hfuel hang

/-- The candidate gradient returned by `_get_gradient` is the
finite-difference quotient of the sibling's mean against `self.mean`. -/
theorem get_gradient_fst (ops : GeometryOps) (fam : IntegratorFamily)
    (sqrtQ : ℚ → ℚ) (fuel : ℕ) (s : SampleState) (step : ℚ) :
    (get_gradient ops fam sqrtQ fuel s step).1 =
      ndiv (ndiv (nsub (npMean ((extract ops fam sqrtQ fuel
          (gradientSample s step)).1.map SamplePt.intensity))
        (s.mean.getD Option.none)) (some s.geometry.sma)) (some step) := rfl

/-- The error estimate returned by `_get_gradient`, written out. -/
theorem get_gradient_snd (ops : GeometryOps) (fam : IntegratorFamily)
    (sqrtQ : ℚ → ℚ) (fuel : ℕ) (s : SampleState) (step : ℚ) :
    (get_gradient ops fam sqrtQ fuel s step).2 =
      ndiv (ndiv (nsqrt sqrtQ (nadd
        (ndiv (nmul (npStd sqrtQ ((extract ops fam sqrtQ fuel s).1.map SamplePt.intensity))
          (npStd sqrtQ ((extract ops fam sqrtQ fuel s).1.map SamplePt.intensity)))
          (some ((extract ops fam sqrtQ fuel s).1.length : ℚ)))
        (ndiv (nmul (npStd sqrtQ ((extract ops fam sqrtQ fuel
            (gradientSample s step)).1.map SamplePt.intensity))
          (npStd sqrtQ ((extract ops fam sqrtQ fuel
            (gradientSample s step)).1.map SamplePt.intensity)))
          (some ((extract ops fam sqrtQ fuel (gradientSample s step)).1.length : ℚ)))))
        (some s.geometry.sma)) (some step) := rfl

/-- The plain `np.std` of a non-empty list whose entries all equal
`some c` is the square root of 0. -/
theorem npStd_all_eq (sqrtQ : ℚ → ℚ) (c : ℚ) (l : List NReal)
    (h : ∀ x ∈ l, x = some c) (hne : l ≠ []) :
    npStd sqrtQ l = some (sqrtQ 0) := by
  simp only [npStd]
  rw [npMean_all_eq c l h hne]
  simp [finiteVals_all_eq c l h, List.map_replicate, List.sum_replicate, sub_self]

/-- When the sibling Sample sees a constant intensity `cg` and
`self.mean` is already set to `c`, `_get_gradient` reports the candidate
gradient `(cg - c) / sma / step`. -/
theorem get_gradient_fst_const (ops : GeometryOps) (fam : IntegratorFamily)
    (sqrtQ : ℚ → ℚ) (fuel : ℕ) (s : SampleState) (step c cg : ℚ)
    (hfam : ∀ m r phi, (fam m).intensity s.img
      (gradientSample s step).geometry r phi = some cg)
    (hsq : sqrtQ 0 = 0) (hmean : s.mean = some (some c))
    (hang : ops.initial_polar_angle (gradientSample s step).geometry ≤
      2 * NP_PI + PHI_MIN)
    (hfuel : 0 < fuel) (hsma : s.geometry.sma ≠ 0) (hstep : step ≠ 0) :
    (get_gradient ops fam sqrtQ fuel s step).1 =
      some ((cg - c) / s.geometry.sma / step) := by
  rw [get_gradient_fst]
  rw [extract_mean_const ops fam sqrtQ fuel (gradientSample s step) cg hfam hsq
    rfl hang hfuel]
  rw [hmean]
  simp [nsub, ndiv, hsma, hstep, Option.getD]

/-- When both the parent's extracted series and the sibling's series are
constant, the error estimate of `_get_gradient` is exactly 0 (both
standard deviations are the square root of 0). -/
theorem get_gradient_snd_const (ops : GeometryOps) (fam : IntegratorFamily)
    (sqrtQ : ℚ → ℚ) (fuel : ℕ) (s : SampleState) (step c cg : ℚ)
    (hfam : ∀ m r phi, (fam m).intensity s.img
      (gradientSample s step).geometry r phi = some cg)
    (hsq : sqrtQ 0 = 0)
    (hself : ∀ p ∈ (extract ops fam sqrtQ fuel s).1, p.intensity = some c)
    (hselfne : (extract ops fam sqrtQ fuel s).1 ≠ [])
    (hang : ops.initial_polar_angle (gradientSample s step).geometry ≤
      2 * NP_PI + PHI_MIN)
    (hfuel : 0 < fuel) (hsma : s.geometry.sma ≠ 0) (hstep : step ≠ 0) :
    (get_gradient ops fam sqrtQ fuel s step).2 = some 0 := by
  rw [get_gradient_snd]
  have hgs := extractCore_const ops fam sqrtQ fuel (gradientSample s step).img
    (gradientSample s step).integrmode (gradientSample s step).sclip
    (gradientSample s step).nclip (gradientSample s step).geometry cg hfam hsq
  have hfstg := extract_fst_of_none ops fam sqrtQ fuel (gradientSample s step) rfl
  have hgall : ∀ p ∈ (extract ops fam sqrtQ fuel (gradientSample s step)).1,
      p.intensity = some cg := by
    rw [hfstg]; exact hgs.1
  have hgne : (extract ops fam sqrtQ fuel (gradientSample s step)).1 ≠ [] := by
    rw [hfstg]; exact hgs.2 hfuel hang
  have hm1 : ∀ x ∈ (extract ops fam sqrtQ fuel s).1.map SamplePt.intensity,
      x = some c := by
    intro x hx
    rcases List.mem_map.1 hx with ⟨p, hp, rfl⟩
    exact hself p hp
  have hm1ne : (extract ops fam sqrtQ fuel s).1.map SamplePt.intensity ≠ [] := by
    simpa using hselfne
  have hm2 : ∀ x ∈ (extract ops fam sqrtQ fuel
      (gradientSample s step)).1.map SamplePt.intensity, x = some cg := by
    intro x hx
    rcases List.mem_map.1 hx with ⟨p, hp, rfl⟩
    exact hgall p hp
  have hm2ne : (extract ops fam sqrtQ fuel
      (gradientSample s step)).1.map SamplePt.intensity ≠ [] := by
    simpa using hgne
  have hl1 : ((extract ops fam sqrtQ fuel s).1.length : ℚ) ≠ 0 :=
    Nat.cast_ne_zero.2 (fun h0 => hselfne (List.length_eq_zero.1 h0))
  have hl2 : ((extract ops fam sqrtQ fuel (gradientSample s step)).1.length : ℚ) ≠ 0 :=
    Nat.cast_ne_zero.2 (fun h0 => hgne (List.length_eq_zero.1 h0))
  rw [npStd_all_eq sqrtQ c _ hm1 hm1ne, npStd_all_eq sqrtQ cg _ hm2 hm2ne, hsq]
  simp [nmul, ndiv, nadd, nsqrt, hsq, hl1, hl2, hsma, hstep]

/-- C3: on a constant-intensity, fully finite image, with no prior
gradient recorded and a fresh cache, `update()` finds the candidate
gradient (exactly 0) not meaningful against the default previous
gradient -0.05, retries with the step doubled, finds it still not
meaningful, and falls back to `gradient = -0.05 * 0.8 = -0.04` with
`gradient_error` and `gradient_relative_error` undefined. -/
theorem c3_flat_image_fallback (ops : GeometryOps) (fam : IntegratorFamily)
    (sqrtQ : ℚ → ℚ) (fuel : ℕ) (s0 : SampleState) (c : ℚ)
    (hfam : ∀ m g' r phi, (fam m).intensity s0.img g' r phi = some c)
    (hsq : sqrtQ 0 = 0) (hval : s0.values = Option.none)
    (hgrad : s0.gradient = Option.none)
    (hang : ∀ g', ops.initial_polar_angle g' ≤ 2 * NP_PI + PHI_MIN)
    (hfuel : 0 < fuel) (hsma : s0.geometry.sma ≠ 0)
    (hstep : s0.geometry.astep ≠ 0) :
    (update ops fam sqrtQ fuel s0).gradient = some (some (-(1 / 25))) ∧
    (update ops fam sqrtQ fuel s0).gradient_error = Option.none ∧
    (update ops fam sqrtQ fuel s0).gradient_relative_error = Option.none := by
  have himg : (updateMeanState ops fam sqrtQ fuel s0).img = s0.img :=
    extract_snd_img ops fam sqrtQ fuel s0
  have hgeo : (updateMeanState ops fam sqrtQ fuel s0).geometry = s0.geometry :=
    extract_snd_geometry ops fam sqrtQ fuel s0
  have hgr : (updateMeanState ops fam sqrtQ fuel s0).gradient = Option.none := by
    rw [show (updateMeanState ops fam sqrtQ fuel s0).gradient =
      (extract ops fam sqrtQ fuel s0).2.gradient from rfl,
      extract_snd_gradient ops fam sqrtQ fuel s0, hgrad]
  have hmean : (updateMeanState ops fam sqrtQ fuel s0).mean = some (some c) := by
    rw [show (updateMeanState ops fam sqrtQ fuel s0).mean =
      some (npMean ((extract ops fam sqrtQ fuel s0).1.map SamplePt.intensity)) from rfl,
      extract_mean_const ops fam sqrtQ fuel s0 c (fun m r phi => hfam m _ r phi)
        hsq hval (hang _) hfuel]
  have hfam2 : ∀ m g' r phi,
      (fam m).intensity (updateMeanState ops fam sqrtQ fuel s0).img g' r phi = some c := by
    rw [himg]; exact hfam
  have hsma2 : (updateMeanState ops fam sqrtQ fuel s0).geometry.sma ≠ 0 := by
    rw [hgeo]; exact hsma
  have hg1 : (get_gradient ops fam sqrtQ fuel (updateMeanState ops fam sqrtQ fuel s0)
      s0.geometry.astep).1 = some 0 := by
    rw [get_gradient_fst_const ops fam sqrtQ fuel _ s0.geometry.astep c c
      (fun m r phi => hfam2 m _ r phi) hsq hmean (hang _) hfuel hsma2 hstep]
    norm_num
  have hg2 : (get_gradient ops fam sqrtQ fuel (updateMeanState ops fam sqrtQ fuel s0)
      (2 * s0.geometry.astep)).1 = some 0 := by
    rw [get_gradient_fst_const ops fam sqrtQ fuel _ (2 * s0.geometry.astep) c c
      (fun m r phi => hfam2 m _ r phi) hsq hmean (hang _) hfuel hsma2
      (mul_ne_zero two_ne_zero hstep)]
    norm_num
  have hprev : previousGradient (updateMeanState ops fam sqrtQ fuel s0).gradient =
      some (-(1 / 20)) := by
    rw [hgr]; rfl
  have hch : updateChain ops fam sqrtQ fuel s0 = (some (-(1 / 25)), Option.none) := by
    rw [updateChain, hprev]
    norm_num [gradientChain, hg1, hg2, nge, ndiv, nmul]
  refine ⟨?_, ?_, ?_⟩
  · show some (updateChain ops fam sqrtQ fuel s0).1 = _
    rw [hch]
  · show (updateChain ops fam sqrtQ fuel s0).2 = _
    rw [hch]
  · show relativeError (updateChain ops fam sqrtQ fuel s0).1
      (updateChain ops fam sqrtQ fuel s0).2 = _
    rw [hch]
    rfl

/-- On a populated cache, `extract` returns the cached series. -/
theorem extract_fst_of_some (ops : GeometryOps) (fam : IntegratorFamily)
    (sqrtQ : ℚ → ℚ) (fuel : ℕ) (s : SampleState) (v : Series)
    (h : s.values = some v) : (extract ops fam sqrtQ fuel s).1 = v := by
  simp [extract, h]

/-- The geometry of the gradient sibling, when the parent's center is
honored (both coordinates non-zero): same center and shape scalars with
the semi-major axis scaled to `(1+step)*sma`. -/
theorem gradientSample_geometry (s : SampleState) (step : ℚ)
    (hx : s.geometry.x0 ≠ 0) (hy : s.geometry.y0 ≠ 0) :
    (gradientSample s step).geometry =
      ⟨s.geometry.x0, s.geometry.y0, (1 + step) * s.geometry.sma, s.geometry.eps,
        s.geometry.pa, s.geometry.astep, s.geometry.linear_growth⟩ := by
  simp [gradientSample, mkSample, isFalsyCoord, hx, hy]

/-- C9 amended: after `update()`, `gradient_relative_error` equals
`gradient_error / |gradient|` whenever `gradient_error` is defined and
non-zero (a NaN error counts as defined and propagates into the
quotient), and it is undefined whenever `gradient_error` is undefined or
exactly zero — a zero error is falsy in Python, so the quotient branch
is skipped. -/
theorem c9_relative_error_law (ops : GeometryOps) (fam : IntegratorFamily)
    (sqrtQ : ℚ → ℚ) (fuel : ℕ) (s0 : SampleState) :
    ((update ops fam sqrtQ fuel s0).gradient_error = Option.none ∨
      (update ops fam sqrtQ fuel s0).gradient_error = some (some 0) →
      (update ops fam sqrtQ fuel s0).gradient_relative_error = Option.none) ∧
    (∀ e : NReal, (update ops fam sqrtQ fuel s0).gradient_error = some e →
      e ≠ some 0 →
      (update ops fam sqrtQ fuel s0).gradient_relative_error =
        some (ndiv e (nabs ((update ops fam sqrtQ fuel s0).gradient.getD
          Option.none)))) := by
  show ((updateChain ops fam sqrtQ fuel s0).2 = Option.none ∨
      (updateChain ops fam sqrtQ fuel s0).2 = some (some 0) →
      relativeError (updateChain ops fam sqrtQ fuel s0).1
        (updateChain ops fam sqrtQ fuel s0).2 = Option.none) ∧
    (∀ e : NReal, (updateChain ops fam sqrtQ fuel s0).2 = some e → e ≠ some 0 →
      relativeError (updateChain ops fam sqrtQ fuel s0).1
        (updateChain ops fam sqrtQ fuel s0).2 =
        some (ndiv e (nabs ((some (updateChain ops fam sqrtQ fuel s0).1).getD
          Option.none))))
  obtain ⟨gv, gev⟩ := updateChain ops fam sqrtQ fuel s0
  constructor
  · rintro (h | h) <;> rw [h] <;> simp [relativeError, pyTruthy]
  · rintro e he hne
    rw [he]
    cases e with
    | none => simp [relativeError, pyTruthy, Option.getD]
    | some q =>
      have hq : q ≠ 0 := fun h0 => hne (by rw [h0])
      simp [relativeError, pyTruthy, hq, Option.getD]

/-- The demo Sample's geometry, made explicit. -/
theorem sampleDemo_geometry :
    sampleDemo.geometry = ⟨1, 1, 10, 0, 0, 1 / 10, false⟩ := by
  norm_num [sampleDemo, mkSample, isFalsyCoord]

/-- Sigma-clipping an empty series yields an empty series. -/
theorem sigmaClip_nil (sqrtQ : ℚ → ℚ) (sclip : ℚ) (nclip : ℕ) :
    sigmaClip sqrtQ sclip nclip [] = [] := by
  rw [sigmaClip_eq_iterate]
  exact Function.iterate_fixed rfl nclip

/-- When every integration at this geometry yields a non-finite
intensity (for instance an ellipse lying entirely off the image), the
extracted series is empty: NaN masking removes every attempted point. -/
theorem extractCore_none_series (ops : GeometryOps) (fam : IntegratorFamily)
    (sqrtQ : ℚ → ℚ) (fuel : ℕ) (img : Image) (mode : IntegrMode) (sclip : ℚ)
    (nclip : ℕ) (g : Geometry)
    (hfam : ∀ m r phi, (fam m).intensity img g r phi = Option.none) :
    (extractCore ops fam sqrtQ fuel img mode sclip nclip g).series = [] := by
  obtain ⟨m, hm⟩ := chooseIntegrator_mem fam img mode g (ops.initial_polar_radius g)
    (ops.initial_polar_angle g)
  have hraw : ∀ p ∈ (walkLoop ops
      (chooseIntegrator fam img mode g (ops.initial_polar_radius g)
        (ops.initial_polar_angle g)).2
      img g fuel (ops.initial_polar_radius g) (ops.initial_polar_angle g)).1,
      p.intensity = Option.none := by
    rw [hm]
    exact walkLoop_const ops (fam m) img g Option.none (hfam m) fuel _ _
  have hmask : nanMasking (walkLoop ops
      (chooseIntegrator fam img mode g (ops.initial_polar_radius g)
        (ops.initial_polar_angle g)).2
      img g fuel (ops.initial_polar_radius g) (ops.initial_polar_angle g)).1 = [] := by
    apply List.filter_eq_nil_iff.2
    intro p hp
    rw [isFinitePt, hraw p hp]
    simp
  show maskAndClip sqrtQ sclip nclip _ = []
  rw [maskAndClip, hmask, sigmaClip_nil]

/-- When `self.mean` is NaN (empty extracted series) and the cache holds
the empty series, both outputs of `_get_gradient` are NaN: every numpy
operation downstream of a NaN stays NaN and nothing raises. -/
theorem get_gradient_nan (ops : GeometryOps) (fam : IntegratorFamily)
    (sqrtQ : ℚ → ℚ) (fuel : ℕ) (s : SampleState) (step : ℚ)
    (hmean : s.mean = some Option.none) (hval : s.values = some []) :
    get_gradient ops fam sqrtQ fuel s step = (Option.none, Option.none) := by
  have hsv : (extract ops fam sqrtQ fuel s).1 = [] := by simp [extract, hval]
  apply Prod.ext
  · rw [get_gradient_fst, hmean]
    simp [Option.getD, nsub_none_right, ndiv_none_left]
  · rw [get_gradient_snd, hsv]
    have hstd : npStd sqrtQ (([] : Series).map SamplePt.intensity) = Option.none := rfl
    rw [hstd]
    simp [nmul_none_left, ndiv_none_left, nadd_none_left, nsqrt]

/-- On an empty extracted series, `update()` sets every statistic to
NaN: the helper behind claim C6, also reused to exhibit a NaN-valued
`gradient_error`. -/
theorem update_nan_stats (ops : GeometryOps) (fam : IntegratorFamily)
    (sqrtQ : ℚ → ℚ) (fuel : ℕ) (s0 : SampleState)
    (hempty : (extract ops fam sqrtQ fuel s0).1 = []) :
    (update ops fam sqrtQ fuel s0).mean = some Option.none ∧
    (update ops fam sqrtQ fuel s0).gradient = some Option.none ∧
    (update ops fam sqrtQ fuel s0).gradient_error = some Option.none ∧
    (update ops fam sqrtQ fuel s0).gradient_relative_error = some Option.none := by
  have hmean2 : (updateMeanState ops fam sqrtQ fuel s0).mean = some Option.none := by
    show some (npMean ((extract ops fam sqrtQ fuel s0).1.map SamplePt.intensity)) = _
    rw [hempty]
    rfl
  have hval2 : (updateMeanState ops fam sqrtQ fuel s0).values = some [] := by
    show (extract ops fam sqrtQ fuel s0).2.values = _
    rw [extract_snd_values, hempty]
  have hg1 := get_gradient_nan ops fam sqrtQ fuel (updateMeanState ops fam sqrtQ fuel s0)
    s0.geometry.astep hmean2 hval2
  have hg2 := get_gradient_nan ops fam sqrtQ fuel (updateMeanState ops fam sqrtQ fuel s0)
    (2 * s0.geometry.astep) hmean2 hval2
  have hch : updateChain ops fam sqrtQ fuel s0 = (Option.none, some Option.none) := by
    rw [updateChain, hg1, hg2]
    simp [gradientChain, nge_none_left]
  refine ⟨hmean2, ?_, ?_, ?_⟩
  · show some (updateChain ops fam sqrtQ fuel s0).1 = _
    rw [hch]
  · show (updateChain ops fam sqrtQ fuel s0).2 = _
    rw [hch]
  · show relativeError (updateChain ops fam sqrtQ fuel s0).1
      (updateChain ops fam sqrtQ fuel s0).2 = _
    rw [hch]
    simp [relativeError, pyTruthy, ndiv_none_left]

/-- C6: a Sample whose post-masking, post-clipping series is empty runs
`extract()` and `update()` to completion with NaN-valued statistics —
the mean, gradient, gradient error and relative error are all NaN rather
than exceptions (the source touches only numpy operations, which absorb
NaN and empty arrays without raising). -/
theorem c6_empty_series_nan (ops : GeometryOps) (fam : IntegratorFamily)
    (sqrtQ : ℚ → ℚ) (fuel : ℕ) (s0 : SampleState)
    (hempty : (extract ops fam sqrtQ fuel s0).1 = []) :
    (update ops fam sqrtQ fuel s0).mean = some Option.none ∧
    (update ops fam sqrtQ fuel s0).gradient = some Option.none ∧
    (update ops fam sqrtQ fuel s0).gradient_error = some Option.none ∧
    (update ops fam sqrtQ fuel s0).gradient_relative_error = some Option.none :=
  update_nan_stats ops fam sqrtQ fuel s0 hempty

/-- The demo Sample over the all-non-finite integrator family extracts
an empty series. -/
theorem sampleDemo_nan_empty :
    (extract opsCircle (famConst Option.none) sqrtZero 1 sampleDemo).1 = [] := by
  rw [extract_fst_of_none opsCircle (famConst Option.none) sqrtZero 1 sampleDemo rfl]
  exact extractCore_none_series opsCircle (famConst Option.none) sqrtZero 1
    sampleDemo.img sampleDemo.integrmode sampleDemo.sclip sampleDemo.nclip
    sampleDemo.geometry (fun _ _ _ => rfl)

/-- Witness for C6: the demo Sample over an integrator that only returns
non-finite intensities extracts an empty series, and `update()` then
reports NaN for every statistic. -/
theorem c6_empty_series_nan_witness :
    (update opsCircle (famConst Option.none) sqrtZero 1 sampleDemo).mean =
      some Option.none ∧
    (update opsCircle (famConst Option.none) sqrtZero 1 sampleDemo).gradient =
      some Option.none ∧
    (update opsCircle (famConst Option.none) sqrtZero 1 sampleDemo).gradient_error =
      some Option.none ∧
    (update opsCircle (famConst Option.none) sqrtZero 1
      sampleDemo).gradient_relative_error = some Option.none :=
  c6_empty_series_nan opsCircle (famConst Option.none) sqrtZero 1 sampleDemo
    sampleDemo_nan_empty

/-- Witness for the amended C9: on the all-non-finite demo configuration
`gradient_error` ends as NaN — defined and non-zero — and the relative
error is the (NaN) quotient. -/
theorem c9_relative_error_law_witness :
    (update opsCircle (famConst Option.none) sqrtZero 1
        sampleDemo).gradient_relative_error =
      some (ndiv Option.none (nabs ((update opsCircle (famConst Option.none)
        sqrtZero 1 sampleDemo).gradient.getD Option.none))) :=
  (c9_relative_error_law opsCircle (famConst Option.none) sqrtZero 1 sampleDemo).2
    Option.none
    ((update_nan_stats opsCircle (famConst Option.none) sqrtZero 1 sampleDemo
      sampleDemo_nan_empty).2.2.1)
    (by simp)

/-- Witness for C3: on the constant-intensity-5 image, the fresh demo
Sample ends `update()` with gradient -0.04 and undefined errors. -/
theorem c3_flat_image_fallback_witness :
    (update opsCircle (famConst (some 5)) sqrtZero 1 sampleDemo).gradient =
      some (some (-(1 / 25))) ∧
    (update opsCircle (famConst (some 5)) sqrtZero 1 sampleDemo).gradient_error =
      Option.none ∧
    (update opsCircle (famConst (some 5)) sqrtZero 1
      sampleDemo).gradient_relative_error = Option.none :=
  c3_flat_image_fallback opsCircle (famConst (some 5)) sqrtZero 1 sampleDemo 5
    (fun _ _ _ _ => rfl) rfl rfl rfl
    (fun _ => by norm_num [opsCircle, NP_PI, PHI_MIN])
    (by norm_num) (by rw [sampleDemo_geometry]; norm_num)
    (by rw [sampleDemo_geometry]; norm_num)

/-- C9 counterexample: on the step-intensity configuration the demo
Sample's `update()` ends with `gradient_error` defined and exactly 0.0
(both series are constant, so both standard deviations vanish) while
`gradient_relative_error` is `None` — because `0.0` is falsy in Python
the quotient branch is skipped, contradicting the claim that a defined
zero error still yields `gradient_error / |gradient|`. -/
theorem c9_counterexample_zero_error :
    (update opsCircle famSmaStep sqrtZero 1 sampleDemo).gradient_error =
      some (some 0) ∧
    (update opsCircle famSmaStep sqrtZero 1 sampleDemo).gradient_relative_error =
      Option.none := by
  have hangmain : opsCircle.initial_polar_angle sampleDemo.geometry ≤
      2 * NP_PI + PHI_MIN := by norm_num [opsCircle, NP_PI, PHI_MIN]
  have hfam_main : ∀ m r phi, (famSmaStep m).intensity sampleDemo.img
      sampleDemo.geometry r phi = some 10 := by
    intro m r phi
    show some (if sampleDemo.geometry.sma ≤ 10 then (10 : ℚ) else 0) = some 10
    rw [sampleDemo_geometry]
    norm_num
  have hmean1 : (updateMeanState opsCircle famSmaStep sqrtZero 1 sampleDemo).mean =
      some (some 10) := by
    show some (npMean ((extract opsCircle famSmaStep sqrtZero 1
      sampleDemo).1.map SamplePt.intensity)) = _
    rw [extract_mean_const opsCircle famSmaStep sqrtZero 1 sampleDemo 10 hfam_main
      rfl rfl hangmain one_pos]
  have hs1geo : (updateMeanState opsCircle famSmaStep sqrtZero 1 sampleDemo).geometry =
      sampleDemo.geometry := extract_snd_geometry opsCircle famSmaStep sqrtZero 1 sampleDemo
  have hs1grad : (updateMeanState opsCircle famSmaStep sqrtZero 1 sampleDemo).gradient =
      Option.none := extract_snd_gradient opsCircle famSmaStep sqrtZero 1 sampleDemo
  have hstep : sampleDemo.geometry.astep ≠ 0 := by
    rw [sampleDemo_geometry]; norm_num
  have hsma1 : (updateMeanState opsCircle famSmaStep sqrtZero 1
      sampleDemo).geometry.sma ≠ 0 := by
    rw [hs1geo, sampleDemo_geometry]; norm_num
  have hx1 : (updateMeanState opsCircle famSmaStep sqrtZero 1
      sampleDemo).geometry.x0 ≠ 0 := by
    rw [hs1geo, sampleDemo_geometry]; norm_num
  have hy1 : (updateMeanState opsCircle famSmaStep sqrtZero 1
      sampleDemo).geometry.y0 ≠ 0 := by
    rw [hs1geo, sampleDemo_geometry]; norm_num
  have hgs := gradientSample_geometry
    (updateMeanState opsCircle famSmaStep sqrtZero 1 sampleDemo)
    sampleDemo.geometry.astep hx1 hy1
  have hgssma : (gradientSample (updateMeanState opsCircle famSmaStep sqrtZero 1
      sampleDemo) sampleDemo.geometry.astep).geometry.sma = 11 := by
    rw [hgs]
    show (1 + sampleDemo.geometry.astep) *
      (updateMeanState opsCircle famSmaStep sqrtZero 1 sampleDemo).geometry.sma = 11
    rw [hs1geo, sampleDemo_geometry]
    norm_num
  have hfam_sib : ∀ m r phi, (famSmaStep m).intensity
      (updateMeanState opsCircle famSmaStep sqrtZero 1 sampleDemo).img
      (gradientSample (updateMeanState opsCircle famSmaStep sqrtZero 1 sampleDemo)
        sampleDemo.geometry.astep).geometry r phi = some 0 := by
    intro m r phi
    show some (if (gradientSample (updateMeanState opsCircle famSmaStep sqrtZero 1
      sampleDemo) sampleDemo.geometry.astep).geometry.sma ≤ 10 then (10 : ℚ) else 0) =
      some 0
    rw [hgssma]
    norm_num
  have hangsib : opsCircle.initial_polar_angle
      (gradientSample (updateMeanState opsCircle famSmaStep sqrtZero 1 sampleDemo)
        sampleDemo.geometry.astep).geometry ≤ 2 * NP_PI + PHI_MIN := by
    norm_num [opsCircle, NP_PI, PHI_MIN]
  have hg1 : (get_gradient opsCircle famSmaStep sqrtZero 1
      (updateMeanState opsCircle famSmaStep sqrtZero 1 sampleDemo)
      sampleDemo.geometry.astep).1 = some (-10) := by
    rw [get_gradient_fst_const opsCircle famSmaStep sqrtZero 1
      (updateMeanState opsCircle famSmaStep sqrtZero 1 sampleDemo)
      sampleDemo.geometry.astep 10 0 hfam_sib rfl hmean1 hangsib one_pos hsma1 hstep]
    rw [hs1geo, sampleDemo_geometry]
    norm_num
  have hc0 := extractCore_const opsCircle famSmaStep sqrtZero 1 sampleDemo.img
    sampleDemo.integrmode sampleDemo.sclip sampleDemo.nclip sampleDemo.geometry 10
    hfam_main rfl
  have hf0 := extract_fst_of_none opsCircle famSmaStep sqrtZero 1 sampleDemo rfl
  have hv1 : (updateMeanState opsCircle famSmaStep sqrtZero 1 sampleDemo).values =
      some ((extract opsCircle famSmaStep sqrtZero 1 sampleDemo).1) :=
    extract_snd_values opsCircle famSmaStep sqrtZero 1 sampleDemo
  have hcache := extract_fst_of_some opsCircle famSmaStep sqrtZero 1
    (updateMeanState opsCircle famSmaStep sqrtZero 1 sampleDemo)
    ((extract opsCircle famSmaStep sqrtZero 1 sampleDemo).1) hv1
  have hself1 : ∀ p ∈ (extract opsCircle famSmaStep sqrtZero 1
      (updateMeanState opsCircle famSmaStep sqrtZero 1 sampleDemo)).1,
      p.intensity = some 10 := by
    rw [hcache, hf0]
    exact hc0.1
  have hselfne1 : (extract opsCircle famSmaStep sqrtZero 1
      (updateMeanState opsCircle famSmaStep sqrtZero 1 sampleDemo)).1 ≠ [] := by
    rw [hcache, hf0]
    exact hc0.2 one_pos hangmain
  have hg1e : (get_gradient opsCircle famSmaStep sqrtZero 1
      (updateMeanState opsCircle famSmaStep sqrtZero 1 sampleDemo)
      sampleDemo.geometry.astep).2 = some 0 :=
    get_gradient_snd_const opsCircle famSmaStep sqrtZero 1
      (updateMeanState opsCircle famSmaStep sqrtZero 1 sampleDemo)
      sampleDemo.geometry.astep 10 0 hfam_sib rfl hself1 hselfne1 hangsib one_pos
      hsma1 hstep
  have hprev : previousGradient (updateMeanState opsCircle famSmaStep sqrtZero 1
      sampleDemo).gradient = some (-(1 / 20)) := by
    rw [hs1grad]; rfl
  have hch : updateChain opsCircle famSmaStep sqrtZero 1 sampleDemo =
      (some (-10), some (some 0)) := by
    rw [updateChain, hprev]
    norm_num [gradientChain, hg1, hg1e, nge, ndiv]
  constructor
  · show (updateChain opsCircle famSmaStep sqrtZero 1 sampleDemo).2 = _
    rw [hch]
  · show relativeError (updateChain opsCircle famSmaStep sqrtZero 1 sampleDemo).1
      (updateChain opsCircle famSmaStep sqrtZero 1 sampleDemo).2 = _
    rw [hch]
    simp [relativeError, pyTruthy]

/-- `coordinates()` returns one (x, y) pair per cached point. -/
theorem coordinatesR_length (pa x0 y0 : ℝ) (pts : List (ℝ × ℝ)) :
    (coordinatesR pa x0 y0 pts).length = pts.length := by
  simp [coordinatesR]

/-- C5: for every cached (angle, radius) point with radius ≥ 0, the
Euclidean distance from the geometry center `(x0, y0)` to the (x, y)
pair produced by `coordinates()` equals the point's sampled radius:
the mapping rotates by the position angle and translates by the center,
which preserves the distance `radius` exactly. -/
theorem c5_coordinate_distance (pa x0 y0 : ℝ) (pts : List (ℝ × ℝ)) (i : ℕ)
    (h : i < pts.length) (hr : 0 ≤ (pts.get ⟨i, h⟩).2) :
    Real.sqrt
      ((((coordinatesR pa x0 y0 pts).get
          ⟨i, by rw [coordinatesR_length]; exact h⟩).1 - x0) ^ 2 +
        (((coordinatesR pa x0 y0 pts).get
          ⟨i, by rw [coordinatesR_length]; exact h⟩).2 - y0) ^ 2) =
      (pts.get ⟨i, h⟩).2 := by
  have hget : (coordinatesR pa x0 y0 pts).get
      ⟨i, by rw [coordinatesR_length]; exact h⟩ =
      ((pts.get ⟨i, h⟩).2 * Real.cos ((pts.get ⟨i, h⟩).1 + pa) + x0,
        (pts.get ⟨i, h⟩).2 * Real.sin ((pts.get ⟨i, h⟩).1 + pa) + y0) := by
    simp [coordinatesR]
  rw [hget]
  have hsq : ((pts.get ⟨i, h⟩).2 * Real.cos ((pts.get ⟨i, h⟩).1 + pa) + x0 - x0) ^ 2 +
      ((pts.get ⟨i, h⟩).2 * Real.sin ((pts.get ⟨i, h⟩).1 + pa) + y0 - y0) ^ 2 =
      (pts.get ⟨i, h⟩).2 ^ 2 := by
    have hpyth := Real.cos_sq_add_sin_sq ((pts.get ⟨i, h⟩).1 + pa)
    nlinarith [hpyth]
  rw [hsq]
  exact Real.sqrt_sq hr

/-- Witness for C5: the single cached point (angle 0, radius 1) with
center (0, 0) and position angle 0 maps to distance 1 from the center. -/
theorem c5_coordinate_distance_witness :
    Real.sqrt
      ((((coordinatesR 0 0 0 [((0 : ℝ), 1)]).get
          ⟨0, by rw [coordinatesR_length]; norm_num⟩).1 - 0) ^ 2 +
        (((coordinatesR 0 0 0 [((0 : ℝ), 1)]).get
          ⟨0, by rw [coordinatesR_length]; norm_num⟩).2 - 0) ^ 2) = 1 := by
  have h := c5_coordinate_distance 0 0 0 [((0 : ℝ), 1)] 0 (by norm_num)
    (by norm_num)
  simpa using h

end KungPao
